import Mathlib

/-!
Verification development for the py-polars Series/DataFrame Python layer.

The Python wrapper code under `py-polars/polars` (and the legacy
`py-polars/pypolars/frame.py`) is shallowly embedded below: pure dispatch
logic is translated function-by-function from the Python source; the
native (Rust) kernels that the wrappers call through `PySeries` are not
part of the source tree and are modelled from the specification where a
claim depends on them (each such definition is marked
`Modelled from the spec:`).  Machine integers are modelled as `Int`/`ℚ`
with explicit range predicates; Python exceptions are an explicit
`Except` error channel.
-/

deriving instance DecidableEq for Except

/-- Polars data-type tags (`polars/datatypes.py`).  Parameters carried by
`Datetime`/`Duration`/`List` in the source are irrelevant to the claims
proved here and are dropped from the tag. -/
inductive DType where
  | Boolean
  | Int8 | Int16 | Int32 | Int64
  | UInt8 | UInt16 | UInt32 | UInt64
  | Float32 | Float64
  | Utf8
  | Date | Datetime | Duration | Time
  | List | Object
  deriving DecidableEq, Repr

/-- Python exception values as far as the embedded code distinguishes
them: the exception class plus its message string. -/
inductive PyExc where
  | valueError (msg : String)
  | runtimeError (msg : String)
  | typeError (msg : String)
  | notImplementedError (msg : String)
  deriving DecidableEq, Repr

/-- A Python-level polars Series, restricted to the non-null numeric
payloads the claims exercise.  Values of every numeric dtype are carried
as exact rationals (`ℚ`): integer dtypes hold integral rationals, float
dtypes hold the rational reading of the IEEE payload (exact for every
value appearing in the claims). -/
structure Series where
  name : String
  dtype : DType
  values : List ℚ
  deriving DecidableEq, Repr

/-- `Series.is_datelike` (series.py): dtype is one of Date, Datetime,
Duration, Time. -/
def Series.is_datelike (s : Series) : Bool :=
  s.dtype = .Date || s.dtype = .Datetime || s.dtype = .Duration || s.dtype = .Time

/-- `Series.is_float` (series.py): dtype is Float32 or Float64. -/
def Series.is_float (s : Series) : Bool :=
  s.dtype = .Float32 || s.dtype = .Float64

/-- `Series.len` (series.py): logical length. -/
def Series.len (s : Series) : Nat := s.values.length

/-! ### Arithmetic dispatch (`Series.__truediv__`, `Series.__mul__`,
`Series.__mod__` and `Series._arithmetic`, series.py lines 360-416) -/

/-- Whether a dtype is one of the numeric physical types for which the
name-templated native kernels (`div_i64`, `mul_f64`, ...) exist. -/
def DType.isNumeric : DType → Bool
  | .Int8 | .Int16 | .Int32 | .Int64 => true
  | .UInt8 | .UInt16 | .UInt32 | .UInt64 => true
  | .Float32 | .Float64 => true
  | _ => false

/-- Whether a rational value is representable in a numeric dtype (floats
accept every value of this exact-rational model; integer dtypes require
an integral value in the machine range; non-numeric dtypes hold no
rational payloads in this model). -/
def DType.contains : DType → ℚ → Bool
  | .Float32, _ => true
  | .Float64, _ => true
  | .Int8, v => decide (v.den = 1 ∧ -(2 ^ 7 : ℚ) ≤ v ∧ v < 2 ^ 7)
  | .Int16, v => decide (v.den = 1 ∧ -(2 ^ 15 : ℚ) ≤ v ∧ v < 2 ^ 15)
  | .Int32, v => decide (v.den = 1 ∧ -(2 ^ 31 : ℚ) ≤ v ∧ v < 2 ^ 31)
  | .Int64, v => decide (v.den = 1 ∧ -(2 ^ 63 : ℚ) ≤ v ∧ v < 2 ^ 63)
  | .UInt8, v => decide (v.den = 1 ∧ (0 : ℚ) ≤ v ∧ v < 2 ^ 8)
  | .UInt16, v => decide (v.den = 1 ∧ (0 : ℚ) ≤ v ∧ v < 2 ^ 16)
  | .UInt32, v => decide (v.den = 1 ∧ (0 : ℚ) ≤ v ∧ v < 2 ^ 32)
  | .UInt64, v => decide (v.den = 1 ∧ (0 : ℚ) ≤ v ∧ v < 2 ^ 64)
  | _, _ => false

/-- Modelled from the spec (§4.1): `Series.cast(dtype, strict=True)`
(the Rust cast kernel is outside the Python source).  A strict cast to a
numeric dtype fails when a value is out of the target's representable
range and otherwise preserves the exact value.  (Value-truncating
float-to-integer casts and casts to non-numeric dtypes are outside this
model and unexercised by the claims.) -/
def seriesCast (s : Series) (d : DType) : Except PyExc Series :=
  if s.values.all (fun v => d.contains v) then
    .ok { s with dtype := d }
  else
    .error (.runtimeError "strict conversion failed")

/-- Modelled from the spec (§4.1): promoted result dtype of a binary
numeric kernel — Float64 absorbs everything, Float32 absorbs the
integers, equal types stay put (the remaining integer-mixing cases are
coarsely collapsed to Int64; no claim depends on them). -/
def promoteNumeric (a b : DType) : DType :=
  if a = .Float64 ∨ b = .Float64 then .Float64
  else if a = .Float32 ∨ b = .Float32 then .Float32
  else if a = b then a
  else .Int64

/-- The binary operations dispatched through `_arithmetic` that the
claims mention. -/
inductive ArithOp where
  | div | mul | rem
  deriving DecidableEq, Repr

/-- Truncation toward zero, as Rust scalar remainder uses. -/
def ratTrunc (q : ℚ) : Int :=
  if 0 ≤ q then q.floor else q.ceil

/-- Elementwise meaning of each kernel on exact rationals (modelled from
the spec; `div` by zero and IEEE rounding are outside the exact model and
unexercised by the claims). -/
def ArithOp.eval : ArithOp → ℚ → ℚ → ℚ
  | .div, a, b => a / b
  | .mul, a, b => a * b
  | .rem, a, b => a - b * (ratTrunc (a / b) : ℚ)

/-- Modelled from the spec: the native Series-vs-Series kernel invoked by
`getattr(self._s, op_s)(other._s)` (Rust, outside the Python source) —
fails when no kernel exists for the dtype pair, broadcasts a length-1
operand, and otherwise applies the operation elementwise with numeric
promotion of the result dtype. -/
def arithKernel (op : ArithOp) (a b : Series) : Except PyExc Series :=
  if ¬ (a.dtype.isNumeric ∧ b.dtype.isNumeric) then
    .error (.runtimeError "arithmetic kernel not found for dtype pair")
  else if a.values.length = b.values.length then
    .ok { name := a.name, dtype := promoteNumeric a.dtype b.dtype,
          values := List.zipWith op.eval a.values b.values }
  else if b.values.length = 1 then
    .ok { name := a.name, dtype := promoteNumeric a.dtype b.dtype,
          values := a.values.map (fun v => op.eval v (b.values.headD 0)) }
  else if a.values.length = 1 then
    .ok { name := a.name, dtype := promoteNumeric a.dtype b.dtype,
          values := b.values.map (fun v => op.eval (a.values.headD 0) v) }
  else
    .error (.runtimeError "cannot do arithmetic on Series of unequal length")

/-- Modelled from the spec: the native Series-vs-scalar kernel obtained
via `get_ffi_func(op_ffi, self.dtype, self._s)` after `maybe_cast`
(Rust, outside the Python source) — absent (None, hence ValueError in the
caller) for non-numeric dtypes, elementwise with the self dtype kept
otherwise. -/
def scalarKernel (op : ArithOp) (self : Series) (q : ℚ) : Except PyExc Series :=
  if self.dtype.isNumeric then
    .ok { name := self.name, dtype := self.dtype,
          values := self.values.map (fun v => op.eval v q) }
  else
    .error (.valueError ("cannot do arithmetic with series of dtype: "
      ++ reprStr self.dtype))

/-- The non-Series operand shapes of `_arithmetic` the claims exercise. -/
inductive Operand where
  | oSeries (t : Series)
  | oInt (n : Int)
  | oFloat (q : ℚ)
  deriving DecidableEq, Repr

/-- `Series._arithmetic` (series.py): a Series operand goes straight to
the Series-vs-Series kernel; a Python float against a non-float Series is
first wrapped as a one-element (Float64-inferred) Series; anything else
is `maybe_cast` to the Series dtype and fed to the name-templated scalar
kernel, raising ValueError when that kernel does not exist.  (The `rhs`
reversed variants are taken only for the `__r*__` operators, which no
claim involves.) -/
def Series.arithmetic (self : Series) (other : Operand) (op : ArithOp) :
    Except PyExc Series :=
  match other with
  | .oSeries t => arithKernel op self t
  | .oFloat q =>
      if ¬ self.is_float then
        arithKernel op self { name := "", dtype := .Float64, values := [q] }
      else
        scalarKernel op self q
  | .oInt n => scalarKernel op self (n : ℚ)

/-- `Series.__truediv__` (series.py lines 387-395): datelike dtypes are
rejected; a float Series divides directly; every other dtype takes the
`self.cast(Float64) / other` branch.  That branch re-enters
`__truediv__` on the freshly cast Float64 Series, which is neither
datelike nor non-float, so exactly one recursion step occurs and is
inlined here as the float branch applied to the cast Series. -/
def Series.truediv (self : Series) (other : Operand) : Except PyExc Series :=
  if self.is_datelike then
    .error (.valueError "first cast to integer before dividing datelike dtypes")
  else if self.is_float then
    self.arithmetic other .div
  else do
    let c ← seriesCast self .Float64
    c.arithmetic other .div

/-- `Series.__mul__` (series.py lines 406-409). -/
def Series.mul (self : Series) (other : Operand) : Except PyExc Series :=
  if self.is_datelike then
    .error (.valueError "first cast to integer before multiplying datelike dtypes")
  else
    self.arithmetic other .mul

/-- `Series.__mod__` (series.py lines 411-416). -/
def Series.mod (self : Series) (other : Operand) : Except PyExc Series :=
  if self.is_datelike then
    .error
      (.valueError "first cast to integer before applying modulo on datelike dtypes")
  else
    self.arithmetic other .rem

/-! ### Construction layer (`polars/internals/construction.py` and
`Series.__init__`, series.py lines 218-245)

The construction claims are about identity and aliasing of the backing
Rust `PySeries` object, so that level is modelled explicitly: a heap maps
object identities (`Nat`) to `PySeries` states, and `series_to_pyseries`
mutates the heap in place. -/

/-- A Python-level element value, restricted to the scalar kinds whose
type-inference paths the claims exercise (`None`, `bool`, `int`,
`float`). -/
inductive PyVal where
  | pyNone
  | pyBool (b : Bool)
  | pyInt (n : Int)
  | pyFloat (q : ℚ)
  deriving DecidableEq, Repr

/-- The state of one Rust-side `PySeries` object. -/
structure PySeries where
  name : String
  dtype : DType
  data : List PyVal
  deriving DecidableEq, Repr

/-- The heap of live `PySeries` objects, keyed by object identity. -/
def Heap : Type := Nat → PySeries

/-- `PySeries.rename` (Rust side of `Series.rename(name, in_place=True)`):
updates the name of the object `sid` in place, touching nothing else. -/
def heapRename (h : Heap) (sid : Nat) (m : String) : Heap :=
  fun i => if i = sid then { h i with name := m } else h i

/-- `series_to_pyseries` (construction.py): renames the input Series in
place and returns its backing object unchanged (`values.inner()`), so the
result is the same heap object. -/
def series_to_pyseries (h : Heap) (name : String) (sid : Nat) : Heap × Nat :=
  (heapRename h sid name, sid)

/-- `_get_first_non_none` (construction.py): first value of the sequence
that is not `None`, else `None` itself. -/
def _get_first_non_none (values : List PyVal) : PyVal :=
  match values.find? (fun v => v ≠ .pyNone) with
  | some v => v
  | none => .pyNone

/-- The dtype the Python element type of `value` infers
(`py_type_to_constructor` composed with the per-type `PySeries.new_*`
constructors): `bool → Boolean`, `int → Int64`, `float → Float64`; a
sequence of only `None`s takes the `float` default
(`dtype_ = type(value) if value is not None else float`). -/
def inferScalarDtype : PyVal → DType
  | .pyNone => .Float64
  | .pyBool _ => .Boolean
  | .pyInt _ => .Int64
  | .pyFloat _ => .Float64

/-- `sequence_to_pyseries` (construction.py): an empty sequence with no
explicit dtype defaults to Float32; an explicit dtype selects the
dtype-specific constructor; otherwise the dtype is inferred from the
first non-None element.  (The Rust `PySeries.new_*` constructors are
outside the Python source; each is modelled as producing a fresh object
with the selected dtype and the given data, and the date/datetime and
nested-sequence inference paths of the source are beyond the scalar
value model here and unexercised by the claims.) -/
def sequence_to_pyseries (name : String) (values : List PyVal)
    (dtype : Option DType) : PySeries :=
  let dtype := if values = [] ∧ dtype = none then some .Float32 else dtype
  match dtype with
  | some d => { name := name, dtype := d, data := values }
  | none =>
      { name := name, dtype := inferScalarDtype (_get_first_non_none values),
        data := values }

/-- The first positional argument of `Series.__init__` (`name`): a string,
`None`, a plain value sequence, or an existing Series (by heap identity). -/
inductive NameArg where
  | nStr (s : String)
  | nNone
  | nSeq (vs : List PyVal)
  | nSeries (sid : Nat)
  deriving DecidableEq, Repr

/-- The `values` argument of `Series.__init__`: `None`, a value sequence,
or an existing Series (by heap identity). -/
inductive ValuesArg where
  | vNone
  | vSeq (vs : List PyVal)
  | vSeries (sid : Nat)
  deriving DecidableEq, Repr

/-- Reading a non-string first positional argument as the `values`
argument (the `values = name; name = None` swap in `Series.__init__`). -/
def NameArg.asValues : NameArg → ValuesArg
  | .nStr _ => .vNone
  | .nNone => .vNone
  | .nSeq vs => .vSeq vs
  | .nSeries sid => .vSeries sid

/-- Result of `Series.__init__`: either a freshly constructed backing
object, or a shared (aliased) existing heap object together with the heap
after any in-place mutation. -/
inductive InitResult where
  | fresh (s : PySeries)
  | shared (h : Heap) (sid : Nat)

/-- `Series.__init__` (series.py): name normalization — the guard
`if name is not None and not isinstance(name, str)` treats a first
positional argument that is neither `None` nor a string as the values
when `values` is `None` and raises otherwise, while a `None` name passes
through untouched and becomes `""` — then dispatch on the shape of
`values`.  For a Series input the backing object is reused via
`series_to_pyseries` (and the `dtype` argument is ignored by that branch
of the source); for `None` the empty sequence path is taken; for a
sequence, `sequence_to_pyseries`. -/
def seriesInit (h : Heap) (nameArg : NameArg) (valuesArg : ValuesArg)
    (dtype : Option DType) : Except PyExc InitResult := do
  let (nameOpt, values) ←
    match nameArg with
    | .nStr s => Except.ok (some s, valuesArg)
    | .nNone => Except.ok ((none : Option String), valuesArg)
    | other =>
        match valuesArg with
        | .vNone => Except.ok ((none : Option String), other.asValues)
        | _ => Except.error (.valueError "Series name must be a string.")
  let name := nameOpt.getD ""
  match values with
  | .vNone => .ok (.fresh (sequence_to_pyseries name [] dtype))
  | .vSeries sid =>
      let (h2, rid) := series_to_pyseries h name sid
      .ok (.shared h2 rid)
  | .vSeq vs => .ok (.fresh (sequence_to_pyseries name vs dtype))

/-! ### Sampling dispatch (`Series.sample`, series.py lines 3601-3646)

The native `sample_n` / `sample_frac` kernels live on the Rust `PySeries`
and are outside the Python source; the dispatch result is therefore
recorded as a call descriptor naming which kernel was invoked and with
which arguments. -/

/-- Modelled from the spec: descriptor of the native sampling call that
`Series.sample` forwards to (`PySeries.sample_n` / `PySeries.sample_frac`
are Rust code outside the Python source). -/
inductive SampleCall where
  | sampleN (n : Int) (withReplacement shuffle : Bool) (seed : Option Int)
  | sampleFrac (frac : ℚ) (withReplacement shuffle : Bool) (seed : Option Int)
  deriving DecidableEq, Repr

/-- `Series.sample` dispatch (series.py): raises if both `n` and `frac`
are given; `n=None, frac` given goes to the fraction kernel; otherwise
`n` defaults to 1 and the count kernel is invoked. -/
def Series.sample (n : Option Int) (frac : Option ℚ)
    (withReplacement shuffle : Bool) (seed : Option Int) :
    Except PyExc SampleCall :=
  if n ≠ none ∧ frac ≠ none then
    .error (.valueError "n and frac were both supplied")
  else if n = none ∧ frac ≠ none then
    .ok (.sampleFrac (frac.getD 0) withReplacement shuffle seed)
  else
    .ok (.sampleN (n.getD 1) withReplacement shuffle seed)

/-! ### Append retry policy (`Series.append`, series.py lines 1445-1454)

`Series.append` wraps the native in-place `PySeries.append` /
`PySeries.extend` in a `try`/`except RuntimeError` that retries once per
borrow conflict against a clone of the appended Series.  The native
calls are Rust code outside the Python source and are modelled from the
spec. -/

/-- The Rust-side state a native append sees: dtype, payload, and whether
the backing storage is currently mutably borrowed elsewhere (e.g. through
a `view()`). -/
structure RsSeries where
  dtype : DType
  data : List ℚ
  borrowed : Bool
  deriving DecidableEq, Repr

/-- `Series.clone` / `PySeries.clone`: a fresh copy of the data whose
backing storage is not borrowed by anyone. -/
def RsSeries.clone (s : RsSeries) : RsSeries :=
  { s with borrowed := false }

/-- Modelled from the spec (§4.3, §7): the native in-place
`PySeries.append` (and `extend`, observably identical at the data level —
append concatenates chunk lists, extend reallocates contiguously).  It
fails with the RuntimeError "Already mutably borrowed" when either
operand's backing storage is borrowed, fails with a different
RuntimeError when the dtypes cannot be appended, and otherwise yields the
concatenated data of the mutated receiver. -/
def rsAppendOrExtend (_appendChunks : Bool) (self other : RsSeries) :
    Except PyExc (List ℚ) :=
  if self.borrowed || other.borrowed then
    .error (.runtimeError "Already mutably borrowed")
  else if self.dtype ≠ other.dtype then
    .error (.runtimeError "cannot append Series of a different dtype")
  else
    .ok (self.data ++ other.data)

/-- `Series.append(other, append_chunks)` (series.py lines 1445-1454):
try the native in-place append/extend; on a RuntimeError whose text is
exactly "Already mutably borrowed", recurse on `other.clone()`; re-raise
any other error unchanged.  The Python recursion is unbounded, so a fuel
argument is threaded; exhausting it corresponds to Python's
RecursionError and is unreachable from any state whose first retry
resolves the conflict. -/
def seriesAppend : Nat → Bool → RsSeries → RsSeries → Except PyExc (List ℚ)
  | 0, _, _, _ => .error (.runtimeError "maximum recursion depth exceeded")
  | fuel + 1, appendChunks, self, other =>
      match rsAppendOrExtend appendChunks self other with
      | .ok d => .ok d
      | .error e =>
          match e with
          | .runtimeError msg =>
              if msg = "Already mutably borrowed" then
                seriesAppend fuel appendChunks self other.clone
              else
                .error (.runtimeError msg)
          | other_e => .error other_e

/-! ### Selector inversion (`polars/selectors.py`,
`_selector_proxy_.__init__` lines 35-49 and `__invert__` lines 51-75)

Selector expressions (`F.all()`, `F.col(...)`, `.exclude(...)`) are
polars expression objects built outside the files here; they are
represented as a syntax tree, which is all `__invert__` manipulates.
Parameter values (names, dtypes, ...) are an arbitrary type `α`. -/

/-- Abstract syntax of the column-selection expressions `__invert__`
builds: `F.all()`, `F.col(args)` (with `F.col([])` as the empty
selection), and `e.exclude(args)`. -/
inductive SExpr (α : Type) where
  | allCols : SExpr α
  | col (args : List α) : SExpr α
  | exclude (e : SExpr α) (args : List α) : SExpr α
  | base (tag : String) : SExpr α
  deriving DecidableEq, Repr

/-- `_selector_proxy_` state as stored by `__init__`: the wrapped
expression, the selector type tag, the `params` dict (association list,
`None` and `{}` identified — every read goes through `or {}`), the
`raw_params` list (`None` and `[]` identified likewise), and the
inversion flag. -/
structure SelectorProxy (α : Type) where
  expr : SExpr α
  type_ : String
  params : List (String × α)
  raw_params : List α
  inverted : Bool
  deriving DecidableEq, Repr

/-- The `raw_params` recomputation at the top of `__invert__`
(selectors.py): `raw_params = self._attrs["raw_params"] or []` followed by
the fallback `raw_params = list(params.values())` when no raw list was
captured but `params` is non-empty. -/
def capturedRawParams {α : Type} (s : SelectorProxy α) : List α :=
  if s.raw_params.isEmpty && !s.params.isEmpty then s.params.map Prod.snd
  else s.raw_params

/-- `_selector_proxy_.__invert__` (selectors.py): "first"/"last"
selectors cannot be inverted; otherwise recompute `raw_params` (falling
back to the `params` values when no raw list was captured), build the
complement expression from that captured list alone — `all().exclude(raw)`
when not yet inverted, `col(raw)` when undoing an inversion, with the
"all" type special-cased — and return a new proxy with the flag
toggled. -/
def selectorInvert {α : Type} (s : SelectorProxy α) :
    Except PyExc (SelectorProxy α) :=
  if s.type_ = "first" ∨ s.type_ = "last" then
    .error (.valueError "Cannot currently invert selector")
  else
    let params := s.params
    let raw_params := capturedRawParams s
    let inverted_expr :=
      if s.type_ = "all" then
        (if s.inverted then SExpr.allCols else SExpr.col [])
      else if s.inverted then
        SExpr.col raw_params
      else
        SExpr.exclude SExpr.allCols raw_params
    .ok { expr := inverted_expr, type_ := s.type_, params := params,
          raw_params := raw_params, inverted := !s.inverted }

/-! ### Positive-index normalization for gather
(`Series._pos_idxs`, series.py lines 474-544) -/

/-- `Series.max` for the numeric model: `None` on an empty Series, the
maximum otherwise (series.py `max` delegates to the native kernel, whose
empty-input result is `None`). -/
def seriesMax (s : Series) : Option ℚ :=
  match s.values with
  | [] => none
  | x :: xs => some (xs.foldl max x)

/-- `Series.min`, as `seriesMax`. -/
def seriesMin (s : Series) : Option ℚ :=
  match s.values with
  | [] => none
  | x :: xs => some (xs.foldl min x)

/-- Python `a >= b` where `a` may be `None`: comparing `None` with an
int raises TypeError. -/
def pyGeN (a : Option ℚ) (b : ℚ) : Except PyExc Bool :=
  match a with
  | none =>
      .error (.typeError
        "'>=' not supported between instances of 'NoneType' and 'int'")
  | some v => .ok (decide (b ≤ v))

/-- Python `a < b` where `a` may be `None`: comparing `None` with an int
raises TypeError. -/
def pyLtN (a : Option ℚ) (b : ℚ) : Except PyExc Bool :=
  match a with
  | none =>
      .error (.typeError
        "'<' not supported between instances of 'NoneType' and 'int'")
  | some v => .ok (decide (v < b))

/-- Modelled from the spec (§4.4): elementwise evaluation of the
expression
`select(when(lit(idxs) < 0).then(len + lit(idxs)).otherwise(lit(idxs)))`
used by `_pos_idxs` — every negative index value `v` becomes `len + v`,
non-negative values pass through.  (The expression engine itself is
outside the source files here.) -/
def translateNegIdxs (len : Nat) (s : Series) : Series :=
  { s with values := s.values.map (fun v => if v < 0 then (len : ℚ) + v else v) }

/-- `Series._pos_idxs` (series.py lines 474-544), Series-input branch,
parameterized by the platform index type (`get_idx_type()` — UInt32 for
standard builds, UInt64 for `polars_u64_idx`): an index Series already of
the platform type passes through; supported narrower/signed/wider types
get the 32-bit-platform range checks (Int64/UInt64 maxima below 2^32,
Int64 minima at least -2^32), negative signed indices are widened as
needed and translated by the Series length, and the result is cast to the
platform index type.  Any other dtype falls through to
NotImplementedError. -/
def posIdxs (idxType : DType) (selfLen : Nat) (idxs : Series) :
    Except PyExc Series := do
  if idxs.dtype = idxType then
    return idxs
  if idxs.dtype ∈ ([.UInt8, .UInt16,
      (if idxType = .UInt32 then DType.UInt64 else DType.UInt32),
      .Int8, .Int16, .Int32, .Int64] : List DType) then
    if idxType = .UInt32 then
      if idxs.dtype = .Int64 ∨ idxs.dtype = .UInt64 then
        if (← pyGeN (seriesMax idxs) (2 ^ 32)) then
          throw (.valueError "Index positions should be smaller than 2^32.")
      if idxs.dtype = .Int64 then
        if (← pyLtN (seriesMin idxs) (-(2 ^ 32))) then
          throw (.valueError "Index positions should be bigger than -2^32 + 1.")
    if idxs.dtype ∈ ([.Int8, .Int16, .Int32, .Int64] : List DType) then
      if (← pyLtN (seriesMin idxs) 0) then
        let widened ←
          if idxType = .UInt32 then
            if idxs.dtype = .Int8 ∨ idxs.dtype = .Int16 then
              seriesCast idxs .Int32
            else
              pure idxs
          else
            if idxs.dtype = .Int8 ∨ idxs.dtype = .Int16 ∨ idxs.dtype = .Int32 then
              seriesCast idxs .Int64
            else
              pure idxs
        return (← seriesCast (translateNegIdxs selfLen widened) idxType)
    return (← seriesCast idxs idxType)
  throw (.notImplementedError "Unsupported idxs datatype.")

/-- A numpy array as `_pos_idxs` sees it: element dtype (numpy's
`int8..uint64` mapped onto the matching polars tags), dimensionality, and
the (1-D) payload as exact machine integers. -/
structure NpArray where
  dtype : DType
  ndim : Nat
  values : List Int
  deriving DecidableEq, Repr

/-- numpy `arr.max()`: raises ValueError on a zero-size array, the
maximum otherwise. -/
def npMax (a : NpArray) : Except PyExc Int :=
  match a.values with
  | [] => .error (.valueError
      "zero-size array to reduction operation maximum which has no identity")
  | x :: xs => .ok (xs.foldl max x)

/-- numpy `arr.min()`, as `npMax`. -/
def npMin (a : NpArray) : Except PyExc Int :=
  match a.values with
  | [] => .error (.valueError
      "zero-size array to reduction operation minimum which has no identity")
  | x :: xs => .ok (xs.foldl min x)

/-- `np.where(idxs < 0, self.len() + idxs, idxs)` (series.py line 540):
every negative value `v` becomes `len + v`, non-negative values pass
through. -/
def npWhereNegAdd (len : Nat) (a : NpArray) : NpArray :=
  { a with values := a.values.map (fun v => if v < 0 then (len : Int) + v else v) }

/-- `Series("", arr, dtype=d)` on a 1-D integer numpy array (the numpy
branch of `Series.__init__` plus `numpy_to_pyseries`, construction.py):
build a Series of the array's dtype carrying the array's values, then
`cast(d, strict=True)`. -/
def seriesFromNp (name : String) (a : NpArray) (d : DType) : Except PyExc Series :=
  seriesCast ⟨name, a.dtype, a.values.map (fun v => (v : ℚ))⟩ d

/-- `Series._pos_idxs` (series.py lines 518-544), numpy-array branch,
parameterized by the platform index type like `posIdxs`: non-1-D arrays
are rejected; integer-kind arrays get the 32-bit-platform range checks
(Int64/UInt64 maxima below 2^32, Int64 minima at least -2^32, with
numpy's own ValueError surfacing from `max()`/`min()` on a zero-size
array), signed arrays containing a negative are widened as needed
(`astype`) and translated via `np.where`, and the result is rebuilt as a
Series cast to the platform index type.  Any other element dtype falls
through to NotImplementedError. -/
def posIdxsNp (idxType : DType) (selfLen : Nat) (idxs : NpArray) :
    Except PyExc Series := do
  if idxs.ndim ≠ 1 then
    throw (.valueError "Only 1D numpy array is supported as index.")
  if idxs.dtype ∈ ([.Int8, .Int16, .Int32, .Int64,
      .UInt8, .UInt16, .UInt32, .UInt64] : List DType) then
    if idxType = .UInt32 then
      if idxs.dtype = .Int64 ∨ idxs.dtype = .UInt64 then
        if (← npMax idxs) ≥ 2 ^ 32 then
          throw (.valueError "Index positions should be smaller than 2^32.")
      if idxs.dtype = .Int64 then
        if (← npMin idxs) < -(2 ^ 32) then
          throw (.valueError "Index positions should be bigger than -2^32 + 1.")
    if idxs.dtype ∈ ([.Int8, .Int16, .Int32, .Int64] : List DType) then
      if (← npMin idxs) < 0 then
        let widened :=
          if idxType = .UInt32 then
            if idxs.dtype = .Int8 ∨ idxs.dtype = .Int16 then
              { idxs with dtype := DType.Int32 }
            else idxs
          else
            if idxs.dtype = .Int8 ∨ idxs.dtype = .Int16 ∨ idxs.dtype = .Int32 then
              { idxs with dtype := DType.Int64 }
            else idxs
        return (← seriesFromNp "" (npWhereNegAdd selfLen widened) idxType)
    return (← seriesFromNp "" idxs idxType)
  throw (.notImplementedError "Unsupported idxs datatype.")

/-! ### Legacy DataFrame slice indexing (`pypolars/frame.py`,
`DataFrame.__getitem__`, slice branch) -/

/-- A Python `slice` object: `start`, `stop`, `step` fields, each possibly
`None`. -/
structure PySlice where
  start : Option Int
  stop : Option Int
  step : Option Int
  deriving DecidableEq, Repr

/-- Embeds `getattr(item, "end", False)` from frame.py: Python `slice`
objects expose only `start`, `stop` and `step`, never an attribute named
`end`, so the `getattr` with default `False` evaluates to `False` on every
slice object. -/
def sliceGetattrEnd (_item : PySlice) : Bool := false

/-- The slice branch of `DataFrame.__getitem__` (frame.py): guard on
`getattr(item, "end", False)`, default `start` to 0 and `stop` to the
frame height, and return the `(offset, length)` pair passed to
`self.slice(start, stop - start)`. -/
def dfGetitemSlice (height : Int) (item : PySlice) : Except PyExc (Int × Int) :=
  if sliceGetattrEnd item then
    .error (.valueError "a slice with steps larger than 1 is not supported")
  else
    let start := item.start.getD 0
    let stop := item.stop.getD height
    .ok (start, stop - start)

/-! ## Helper lemmas -/

@[simp]
theorem exceptOk_bind {ε α β : Type} (a : α) (f : α → Except ε β) :
    (Except.ok a : Except ε α) >>= f = f a := rfl

@[simp]
theorem exceptError_bind {ε α β : Type} (e : ε) (f : α → Except ε β) :
    (Except.error e : Except ε α) >>= f = Except.error e := rfl

@[simp]
theorem exceptThrow_eq_error {ε α : Type} (e : ε) :
    (throw e : Except ε α) = Except.error e := rfl

theorem foldl_max_bounds {α : Type} [LinearOrder α] (l : List α) (a : α) :
    a ≤ l.foldl max a ∧ ∀ v ∈ l, v ≤ l.foldl max a := by
  induction l generalizing a with
  | nil => simp
  | cons b t ih =>
      rw [List.foldl_cons]
      have h := ih (max a b)
      refine ⟨le_trans (le_max_left a b) h.1, ?_⟩
      intro v hv
      rcases List.mem_cons.mp hv with rfl | hv
      · exact le_trans (le_max_right a v) h.1
      · exact h.2 v hv

theorem foldl_min_bounds {α : Type} [LinearOrder α] (l : List α) (a : α) :
    l.foldl min a ≤ a ∧ ∀ v ∈ l, l.foldl min a ≤ v := by
  induction l generalizing a with
  | nil => simp
  | cons b t ih =>
      rw [List.foldl_cons]
      have h := ih (min a b)
      refine ⟨le_trans h.1 (min_le_left a b), ?_⟩
      intro v hv
      rcases List.mem_cons.mp hv with rfl | hv
      · exact le_trans h.1 (min_le_right a v)
      · exact h.2 v hv

theorem foldl_max_mem {α : Type} [LinearOrder α] (l : List α) (a : α) :
    l.foldl max a = a ∨ l.foldl max a ∈ l := by
  induction l generalizing a with
  | nil => simp
  | cons b t ih =>
      rw [List.foldl_cons]
      rcases ih (max a b) with h | h
      · rcases max_choice a b with hc | hc
        · exact Or.inl (h.trans hc)
        · exact Or.inr (List.mem_cons.mpr (Or.inl (h.trans hc)))
      · exact Or.inr (List.mem_cons.mpr (Or.inr h))

theorem foldl_min_mem {α : Type} [LinearOrder α] (l : List α) (a : α) :
    l.foldl min a = a ∨ l.foldl min a ∈ l := by
  induction l generalizing a with
  | nil => simp
  | cons b t ih =>
      rw [List.foldl_cons]
      rcases ih (min a b) with h | h
      · rcases min_choice a b with hc | hc
        · exact Or.inl (h.trans hc)
        · exact Or.inr (List.mem_cons.mpr (Or.inl (h.trans hc)))
      · exact Or.inr (List.mem_cons.mpr (Or.inr h))

theorem seriesMax_cons (s : Series) (x : ℚ) (xs : List ℚ)
    (hv : s.values = x :: xs) : seriesMax s = some (xs.foldl max x) := by
  unfold seriesMax
  rw [hv]

theorem seriesMin_cons (s : Series) (x : ℚ) (xs : List ℚ)
    (hv : s.values = x :: xs) : seriesMin s = some (xs.foldl min x) := by
  unfold seriesMin
  rw [hv]

theorem seriesMax_spec (s : Series) (m : ℚ) (h : seriesMax s = some m) :
    m ∈ s.values ∧ ∀ v ∈ s.values, v ≤ m := by
  rcases hval : s.values with _ | ⟨x, xs⟩
  · rw [seriesMax, hval] at h
    cases h
  · rw [seriesMax_cons s x xs hval] at h
    obtain rfl : xs.foldl max x = m := by injection h
    constructor
    · rcases foldl_max_mem xs x with h2 | h2
      · rw [h2]; exact List.mem_cons_self x xs
      · exact List.mem_cons.mpr (Or.inr h2)
    · intro v hvv
      rcases List.mem_cons.mp hvv with rfl | hvv
      · exact (foldl_max_bounds xs v).1
      · exact (foldl_max_bounds xs x).2 v hvv

theorem seriesMin_spec (s : Series) (m : ℚ) (h : seriesMin s = some m) :
    m ∈ s.values ∧ ∀ v ∈ s.values, m ≤ v := by
  rcases hval : s.values with _ | ⟨x, xs⟩
  · rw [seriesMin, hval] at h
    cases h
  · rw [seriesMin_cons s x xs hval] at h
    obtain rfl : xs.foldl min x = m := by injection h
    constructor
    · rcases foldl_min_mem xs x with h2 | h2
      · rw [h2]; exact List.mem_cons_self x xs
      · exact List.mem_cons.mpr (Or.inr h2)
    · intro v hvv
      rcases List.mem_cons.mp hvv with rfl | hvv
      · exact (foldl_min_bounds xs v).1
      · exact (foldl_min_bounds xs x).2 v hvv

theorem seriesMax_isSome (s : Series) (h : s.values ≠ []) :
    ∃ m, seriesMax s = some m := by
  rcases hv : s.values with _ | ⟨x, xs⟩
  · exact absurd hv h
  · exact ⟨xs.foldl max x, seriesMax_cons s x xs hv⟩

theorem seriesMin_isSome (s : Series) (h : s.values ≠ []) :
    ∃ m, seriesMin s = some m := by
  rcases hv : s.values with _ | ⟨x, xs⟩
  · exact absurd hv h
  · exact ⟨xs.foldl min x, seriesMin_cons s x xs hv⟩

theorem translateNegIdxs_id_of_nonneg (len : Nat) (s : Series)
    (h : ∀ v ∈ s.values, 0 ≤ v) : translateNegIdxs len s = s := by
  unfold translateNegIdxs
  have hm : s.values.map (fun v => if v < 0 then (len : ℚ) + v else v) = s.values := by
    conv_rhs => rw [← List.map_id s.values]
    exact List.map_congr_left (fun v hv => by simp [not_lt.mpr (h v hv)])
  cases s
  simp only at hm
  simp [hm]

/-! ## Claim theorems -/

/-- C6: calling `Series.sample` with both `n` and `frac` supplied (both
not None) raises ValueError, and no sampling call is made. -/
theorem sample_rejects_n_and_frac (n : Int) (f : ℚ) (wr sh : Bool)
    (seed : Option Int) :
    Series.sample (some n) (some f) wr sh seed
      = .error (.valueError "n and frac were both supplied") := by
  simp [Series.sample]

/-- C9: calling `Series.sample` with neither `n` nor `frac` does not
raise: `n` defaults to 1 and the sample-by-count native call is made with
count 1. -/
theorem sample_defaults_to_one_by_count (wr sh : Bool) (seed : Option Int) :
    Series.sample none none wr sh seed = .ok (.sampleN 1 wr sh seed) := rfl

/-- C10: in `DataFrame.__getitem__` the slice guard tests the attribute
`end`, which slice objects never have, so the guard is always False, the
ValueError branch is unreachable, and the result is computed from start
and stop alone — `slice(offset=start, length=stop-start)` — with the
slice's step silently ignored. -/
theorem df_getitem_slice_ignores_step (height : Int) (item : PySlice) :
    sliceGetattrEnd item = false
  ∧ dfGetitemSlice height item
      = .ok (item.start.getD 0, item.stop.getD height - item.start.getD 0)
  ∧ ∀ step2 : Option Int,
      dfGetitemSlice height { item with step := step2 }
        = dfGetitemSlice height item :=
  ⟨rfl, rfl, fun _ => rfl⟩

/-- C7: constructing a Series from an empty sequence or from
`values=None`, with no explicit dtype, yields a Float32 Series — whether
the name is a string or None, and whether the empty sequence arrives as
the `values` argument or positionally as the first argument. -/
theorem empty_construction_defaults_to_float32 (h : Heap) (m : String) :
    seriesInit h (.nStr m) .vNone none = .ok (.fresh ⟨m, .Float32, []⟩)
  ∧ seriesInit h (.nStr m) (.vSeq []) none = .ok (.fresh ⟨m, .Float32, []⟩)
  ∧ seriesInit h .nNone .vNone none = .ok (.fresh ⟨"", .Float32, []⟩)
  ∧ seriesInit h .nNone (.vSeq []) none = .ok (.fresh ⟨"", .Float32, []⟩)
  ∧ seriesInit h (.nSeq []) .vNone none = .ok (.fresh ⟨"", .Float32, []⟩) :=
  ⟨rfl, rfl, rfl, rfl, rfl⟩

/-- C8: constructing `Series(m, s)` from an existing Series reuses the
same backing `PySeries` object (same heap identity, no data copy),
renames it to `m` in place — so the input Series also carries the name
`m` afterwards — and touches no other heap object. -/
theorem series_input_shares_and_renames_storage (h : Heap) (m : String)
    (sid : Nat) (dt : Option DType) :
    seriesInit h (.nStr m) (.vSeries sid) dt = .ok (.shared (heapRename h sid m) sid)
  ∧ (heapRename h sid m) sid = { h sid with name := m }
  ∧ ((heapRename h sid m) sid).data = (h sid).data
  ∧ ∀ j, j ≠ sid → (heapRename h sid m) j = h j := by
  refine ⟨rfl, by simp [heapRename], by simp [heapRename], fun j hj => ?_⟩
  simp [heapRename, hj]

/-- Witness for C8 at a concrete one-object heap. -/
theorem series_input_shares_and_renames_storage_witness :
    seriesInit (fun _ => ⟨"orig", .Int64, [.pyInt 5]⟩) (.nStr "m") (.vSeries 0) none
      = .ok (.shared (heapRename (fun _ => ⟨"orig", .Int64, [.pyInt 5]⟩) 0 "m") 0)
  ∧ (heapRename (fun _ => ⟨"orig", .Int64, [.pyInt 5]⟩) 0 "m") 0
      = ⟨"m", .Int64, [.pyInt 5]⟩
  ∧ (heapRename (fun _ => ⟨"orig", .Int64, [.pyInt 5]⟩) 0 "m") 1
      = ⟨"orig", .Int64, [.pyInt 5]⟩ :=
  ⟨(series_input_shares_and_renames_storage (fun _ => ⟨"orig", .Int64, [.pyInt 5]⟩)
      "m" 0 none).1,
   ((series_input_shares_and_renames_storage (fun _ => ⟨"orig", .Int64, [.pyInt 5]⟩)
      "m" 0 none).2.1).trans rfl,
   (series_input_shares_and_renames_storage (fun _ => ⟨"orig", .Int64, [.pyInt 5]⟩)
      "m" 0 none).2.2.2 1 (by decide)⟩

/-- C3: a Series whose dtype is Date, Datetime, Duration or Time rejects
`*`, `/` and `%` with a ValueError for any operand. -/
theorem datelike_rejects_mul_div_mod (s : Series) (other : Operand)
    (hd : s.dtype = .Date ∨ s.dtype = .Datetime ∨ s.dtype = .Duration ∨
      s.dtype = .Time) :
    s.truediv other
      = .error (.valueError "first cast to integer before dividing datelike dtypes")
  ∧ s.mul other
      = .error (.valueError "first cast to integer before multiplying datelike dtypes")
  ∧ s.mod other
      = .error
        (.valueError "first cast to integer before applying modulo on datelike dtypes") := by
  have hdl : s.is_datelike = true := by
    rcases hd with h | h | h | h <;> simp [Series.is_datelike, h]
  exact ⟨by simp [Series.truediv, hdl], by simp [Series.mul, hdl],
    by simp [Series.mod, hdl]⟩

/-- Witness for C3 on a concrete Date Series. -/
theorem datelike_rejects_mul_div_mod_witness :
    Series.truediv ⟨"d", .Date, [1]⟩ (.oInt 2)
      = .error (.valueError "first cast to integer before dividing datelike dtypes")
  ∧ Series.mul ⟨"d", .Date, [1]⟩ (.oInt 2)
      = .error (.valueError "first cast to integer before multiplying datelike dtypes")
  ∧ Series.mod ⟨"d", .Date, [1]⟩ (.oInt 2)
      = .error
        (.valueError "first cast to integer before applying modulo on datelike dtypes") :=
  datelike_rejects_mul_div_mod ⟨"d", .Date, [1]⟩ (.oInt 2) (Or.inl rfl)

/-- C1: `Series.append` retries the failed in-place append/extend against
a clone exactly when the underlying RuntimeError is the "Already mutably
borrowed" borrow conflict — so an append whose receiver is unborrowed
auto-recovers and yields the concatenated data even when the appended
Series is borrowed — and re-raises any other failure unchanged. -/
theorem append_retries_borrow_conflict_against_clone
    (self other : RsSeries) (ac : Bool) (fuel : Nat) :
    (rsAppendOrExtend ac self other
        = .error (.runtimeError "Already mutably borrowed") →
      seriesAppend (fuel + 1) ac self other
        = seriesAppend fuel ac self other.clone)
  ∧ (self.borrowed = false → other.dtype = self.dtype →
      seriesAppend (fuel + 2) ac self other = .ok (self.data ++ other.data))
  ∧ (∀ e, rsAppendOrExtend ac self other = .error e →
      e ≠ .runtimeError "Already mutably borrowed" →
      seriesAppend (fuel + 1) ac self other = .error e) := by
  refine ⟨?_, ?_, ?_⟩
  · intro h
    simp [seriesAppend, h]
  · intro hb hdt
    cases hob : other.borrowed
    · have hra : rsAppendOrExtend ac self other = .ok (self.data ++ other.data) := by
        simp [rsAppendOrExtend, hb, hob, hdt]
      simp [seriesAppend, hra]
    · have hra : rsAppendOrExtend ac self other
          = .error (.runtimeError "Already mutably borrowed") := by
        simp [rsAppendOrExtend, hob]
      have hra2 : rsAppendOrExtend ac self other.clone
          = .ok (self.data ++ other.data) := by
        simp [rsAppendOrExtend, RsSeries.clone, hb, hdt]
      simp [seriesAppend, hra, hra2]
  · intro e he hne
    cases e with
    | runtimeError msg =>
        have hmsg : msg ≠ "Already mutably borrowed" := by
          intro h
          exact hne (by rw [h])
        simp [seriesAppend, he, hmsg]
    | valueError msg => simp [seriesAppend, he]
    | typeError msg => simp [seriesAppend, he]
    | notImplementedError msg => simp [seriesAppend, he]

/-- Witness for C1: a borrowed appendee recovers through the clone retry,
and a dtype-mismatch RuntimeError is re-raised unchanged. -/
theorem append_retries_borrow_conflict_against_clone_witness :
    rsAppendOrExtend true ⟨.Int64, [1], false⟩ ⟨.Int64, [2], true⟩
      = .error (.runtimeError "Already mutably borrowed")
  ∧ seriesAppend 2 true ⟨.Int64, [1], false⟩ ⟨.Int64, [2], true⟩ = .ok [1, 2]
  ∧ seriesAppend 1 true ⟨.Int64, [1], false⟩ ⟨.Float64, [2], false⟩
      = .error (.runtimeError "cannot append Series of a different dtype") :=
  ⟨rfl,
   (append_retries_borrow_conflict_against_clone
      ⟨.Int64, [1], false⟩ ⟨.Int64, [2], true⟩ true 0).2.1 rfl rfl,
   (append_retries_borrow_conflict_against_clone
      ⟨.Int64, [1], false⟩ ⟨.Float64, [2], false⟩ true 0).2.2
     (.runtimeError "cannot append Series of a different dtype") rfl (by decide)⟩

theorem capturedRawParams_stable {α : Type} (s : SelectorProxy α)
    (e : SExpr α) (t : String) (b : Bool) :
    capturedRawParams ⟨e, t, s.params, capturedRawParams s, b⟩
      = capturedRawParams s := by
  by_cases hp : s.params.isEmpty
  · simp [capturedRawParams, hp]
  · by_cases hr : s.raw_params.isEmpty
    · have hm : (s.params.map Prod.snd).isEmpty = false := by
        cases hpp : s.params
        · rw [hpp] at hp; simp at hp
        · simp
      simp [capturedRawParams, hp, hr, hm]
    · have hr2 : s.raw_params.isEmpty = false := by
        simpa using hr
      simp [capturedRawParams, hp, hr2]

/-- C5: inverting a selector that is not of type "all"/"first"/"last" and
is not already inverted builds `all().exclude(raw)` purely from the raw
parameter list captured at construction (falling back to the `params`
values when no raw list was stored) — the context columns play no part in
the expression — and a second inversion rebuilds `col(raw)` from that
same captured list. -/
theorem selector_invert_uses_captured_params {α : Type} (s : SelectorProxy α)
    (h1 : s.type_ ≠ "all") (h2 : s.type_ ≠ "first") (h3 : s.type_ ≠ "last")
    (hi : s.inverted = false) :
    selectorInvert s = .ok ⟨.exclude .allCols (capturedRawParams s), s.type_,
        s.params, capturedRawParams s, true⟩
  ∧ selectorInvert ⟨.exclude .allCols (capturedRawParams s), s.type_,
        s.params, capturedRawParams s, true⟩
      = .ok ⟨.col (capturedRawParams s), s.type_, s.params,
        capturedRawParams s, false⟩ := by
  constructor
  · simp [selectorInvert, h1, h2, h3, hi]
  · simp [selectorInvert, h1, h2, h3, capturedRawParams_stable]

/-- Witness for C5 on a concrete by-name selector over strings. -/
theorem selector_invert_uses_captured_params_witness :
    selectorInvert (⟨.base "by_name", "by_name", [("names", "foo")], ["foo"],
        false⟩ : SelectorProxy String)
      = .ok ⟨.exclude .allCols ["foo"], "by_name", [("names", "foo")], ["foo"], true⟩
  ∧ selectorInvert (⟨.exclude .allCols ["foo"], "by_name", [("names", "foo")],
        ["foo"], true⟩ : SelectorProxy String)
      = .ok ⟨.col ["foo"], "by_name", [("names", "foo")], ["foo"], false⟩ :=
  selector_invert_uses_captured_params
    ⟨.base "by_name", "by_name", [("names", "foo")], ["foo"], false⟩
    (by decide) (by decide) (by decide) rfl

theorem seriesCast_float64_ok (s : Series) :
    seriesCast s .Float64 = .ok { s with dtype := .Float64 } := by
  have h : s.values.all (fun v => DType.contains .Float64 v) = true :=
    List.all_eq_true.mpr (fun x _ => rfl)
  simp [seriesCast, h]

theorem arithKernel_ok_dtype (op : ArithOp) (a b : Series) (r : Series)
    (h : arithKernel op a b = .ok r) :
    r.dtype = promoteNumeric a.dtype b.dtype := by
  unfold arithKernel at h
  split_ifs at h <;> (cases h; rfl)

theorem scalarKernel_ok_dtype (op : ArithOp) (self : Series) (q : ℚ)
    (r : Series) (h : scalarKernel op self q = .ok r) :
    r.dtype = self.dtype := by
  unfold scalarKernel at h
  split_ifs at h <;> (cases h; rfl)

/-- C2: `/` on a Series of non-float, non-datelike dtype first casts the
Series to Float64 and then divides, so every successful result has dtype
Float64; concretely, dividing the Int64 Series [1,2,3] by [2,2,2] yields
the Float64 Series [0.5, 1.0, 1.5]. -/
theorem truediv_casts_to_float64_then_divides (s : Series) (other : Operand)
    (hf : s.is_float = false) (hd : s.is_datelike = false) :
    seriesCast s .Float64 = .ok { s with dtype := .Float64 }
  ∧ s.truediv other = Series.arithmetic { s with dtype := .Float64 } other .div
  ∧ (∀ r, s.truediv other = .ok r → r.dtype = .Float64)
  ∧ Series.truediv ⟨"", .Int64, [1, 2, 3]⟩ (.oSeries ⟨"", .Int64, [2, 2, 2]⟩)
      = .ok ⟨"", .Float64, [1/2, 1, 3/2]⟩ := by
  have hcast := seriesCast_float64_ok s
  have hmain : s.truediv other
      = Series.arithmetic { s with dtype := .Float64 } other .div := by
    simp [Series.truediv, hf, hd, hcast, Bind.bind, Except.bind]
  refine ⟨hcast, hmain, ?_, ?_⟩
  · intro r hr
    rw [hmain] at hr
    cases other with
    | oSeries t =>
        have h2 := arithKernel_ok_dtype .div { s with dtype := .Float64 } t r
          (by simpa [Series.arithmetic] using hr)
        rw [h2]
        simp [promoteNumeric]
    | oInt n =>
        have h2 := scalarKernel_ok_dtype .div { s with dtype := .Float64 } (n : ℚ) r
          (by simpa [Series.arithmetic] using hr)
        simpa using h2
    | oFloat q =>
        have hf2 : ({ s with dtype := DType.Float64 } : Series).is_float = true := by
          simp [Series.is_float]
        have h2 := scalarKernel_ok_dtype .div { s with dtype := .Float64 } q r
          (by simpa [Series.arithmetic, hf2] using hr)
        simpa using h2
  · have hstep : Series.truediv ⟨"", .Int64, [1, 2, 3]⟩
        (.oSeries ⟨"", .Int64, [2, 2, 2]⟩)
        = .ok ⟨"", .Float64, [(1 : ℚ) / 2, (2 : ℚ) / 2, (3 : ℚ) / 2]⟩ := rfl
    rw [hstep]
    norm_num

/-- Witness for C2 at the concrete integer division of the claim. -/
theorem truediv_casts_to_float64_then_divides_witness :
    Series.truediv ⟨"", .Int64, [1, 2, 3]⟩ (.oSeries ⟨"", .Int64, [2, 2, 2]⟩)
      = .ok ⟨"", .Float64, [1/2, 1, 3/2]⟩ :=
  (truediv_casts_to_float64_then_divides ⟨"", .Int64, [1, 2, 3]⟩
    (.oSeries ⟨"", .Int64, [2, 2, 2]⟩) rfl rfl).2.2.2

theorem seriesCast_translate_dtype_irrel (len : Nat) (nm : String)
    (d1 d2 : DType) (vals : List ℚ) (d : DType) :
    seriesCast (translateNegIdxs len ⟨nm, d1, vals⟩) d
      = seriesCast (translateNegIdxs len ⟨nm, d2, vals⟩) d := by
  simp [seriesCast, translateNegIdxs]

theorem contains_int8_to_int32 (v : ℚ) (h : DType.contains .Int8 v = true) :
    DType.contains .Int32 v = true := by
  simp [DType.contains] at h ⊢
  exact ⟨h.1, by linarith [h.2.1], by linarith [h.2.2]⟩

theorem contains_int16_to_int32 (v : ℚ) (h : DType.contains .Int16 v = true) :
    DType.contains .Int32 v = true := by
  simp [DType.contains] at h ⊢
  exact ⟨h.1, by linarith [h.2.1], by linarith [h.2.2]⟩

theorem npMax_cons (a : NpArray) (x : Int) (xs : List Int)
    (hv : a.values = x :: xs) : npMax a = .ok (xs.foldl max x) := by
  unfold npMax
  rw [hv]

theorem npMin_cons (a : NpArray) (x : Int) (xs : List Int)
    (hv : a.values = x :: xs) : npMin a = .ok (xs.foldl min x) := by
  unfold npMin
  rw [hv]

theorem npMax_spec (a : NpArray) (m : Int) (h : npMax a = .ok m) :
    m ∈ a.values ∧ ∀ v ∈ a.values, v ≤ m := by
  rcases hval : a.values with _ | ⟨x, xs⟩
  · rw [npMax, hval] at h
    cases h
  · rw [npMax_cons a x xs hval] at h
    obtain rfl : xs.foldl max x = m := by injection h
    constructor
    · rcases foldl_max_mem xs x with h2 | h2
      · rw [h2]; exact List.mem_cons_self x xs
      · exact List.mem_cons.mpr (Or.inr h2)
    · intro v hvv
      rcases List.mem_cons.mp hvv with rfl | hvv
      · exact (foldl_max_bounds xs v).1
      · exact (foldl_max_bounds xs x).2 v hvv

theorem npMin_spec (a : NpArray) (m : Int) (h : npMin a = .ok m) :
    m ∈ a.values ∧ ∀ v ∈ a.values, m ≤ v := by
  rcases hval : a.values with _ | ⟨x, xs⟩
  · rw [npMin, hval] at h
    cases h
  · rw [npMin_cons a x xs hval] at h
    obtain rfl : xs.foldl min x = m := by injection h
    constructor
    · rcases foldl_min_mem xs x with h2 | h2
      · rw [h2]; exact List.mem_cons_self x xs
      · exact List.mem_cons.mpr (Or.inr h2)
    · intro v hvv
      rcases List.mem_cons.mp hvv with rfl | hvv
      · exact (foldl_min_bounds xs v).1
      · exact (foldl_min_bounds xs x).2 v hvv

theorem npMax_isOk (a : NpArray) (h : a.values ≠ []) :
    ∃ m, npMax a = .ok m := by
  rcases hv : a.values with _ | ⟨x, xs⟩
  · exact absurd hv h
  · exact ⟨xs.foldl max x, npMax_cons a x xs hv⟩

theorem npMin_isOk (a : NpArray) (h : a.values ≠ []) :
    ∃ m, npMin a = .ok m := by
  rcases hv : a.values with _ | ⟨x, xs⟩
  · exact absurd hv h
  · exact ⟨xs.foldl min x, npMin_cons a x xs hv⟩

theorem npWhereNegAdd_id_of_nonneg (len : Nat) (a : NpArray)
    (h : ∀ v ∈ a.values, 0 ≤ v) : npWhereNegAdd len a = a := by
  unfold npWhereNegAdd
  have hm : a.values.map (fun v => if v < 0 then (len : Int) + v else v)
      = a.values := by
    conv_rhs => rw [← List.map_id a.values]
    exact List.map_congr_left (fun v hv => by simp [not_lt.mpr (h v hv)])
  cases a
  simp only at hm
  simp [hm]

theorem seriesFromNp_where_dtype_irrel (len : Nat) (a : NpArray)
    (d2 target : DType) :
    seriesFromNp "" (npWhereNegAdd len { a with dtype := d2 }) target
      = seriesFromNp "" (npWhereNegAdd len a) target := by
  simp [seriesFromNp, npWhereNegAdd, seriesCast]

/-- C4 counterexample: the claim as stated also covers EMPTY index
inputs — an empty Int64 Series (or zero-size int64 numpy array) triggers
neither range condition, so the claim requires the translate-and-cast
gather path — but the code compares `idxs.max()` against `2**32`:
for the Series branch `max()` is None and the comparison raises
TypeError; for the numpy branch `max()` itself raises numpy's zero-size
reduction ValueError.  Neither is the claimed gather. -/
theorem pos_idxs_empty_input_counterexample :
    posIdxs .UInt32 3 ⟨"", .Int64, []⟩
      = .error
        (.typeError "'>=' not supported between instances of 'NoneType' and 'int'")
  ∧ seriesCast (translateNegIdxs 3 ⟨"", .Int64, []⟩) .UInt32
      = .ok ⟨"", .UInt32, []⟩
  ∧ posIdxs .UInt32 3 ⟨"", .Int64, []⟩
      ≠ seriesCast (translateNegIdxs 3 ⟨"", .Int64, []⟩) .UInt32
  ∧ posIdxsNp .UInt32 3 ⟨.Int64, 1, []⟩
      = .error
        (.valueError
          "zero-size array to reduction operation maximum which has no identity")
  ∧ seriesFromNp "" (npWhereNegAdd 3 ⟨.Int64, 1, []⟩) .UInt32
      = .ok ⟨"", .UInt32, []⟩
  ∧ posIdxsNp .UInt32 3 ⟨.Int64, 1, []⟩
      ≠ seriesFromNp "" (npWhereNegAdd 3 ⟨.Int64, 1, []⟩) .UInt32 :=
  ⟨rfl, rfl, by decide, rfl, rfl, by decide⟩

/-- C4 (amended: the index input — Series or 1-D integer numpy array —
must be non-empty; on an empty input the `max()`/`min()` reductions fail,
raising TypeError for the Series branch and numpy's zero-size ValueError
for the array branch, instead of gathering): for `_pos_idxs` with
platform index type UInt32 on a non-empty index input of either class —
an Int64/UInt64 input containing a value ≥ 2^32 raises the "smaller than
2^32" ValueError; an Int64 input below that bound but containing a value
< -2^32 raises the "bigger than -2^32 + 1" ValueError; and otherwise a
signed input (Series values representable in their dtype, Int64 values
within (-2^32, 2^32)) has every negative value v replaced by length + v
and the result cast to the platform index type UInt32. -/
theorem pos_idxs_range_checks_and_negative_translation
    (len : Nat) (idxs : Series) (arr : NpArray) (hne : idxs.values ≠ [])
    (hane : arr.values ≠ []) (hdim : arr.ndim = 1) :
    ((idxs.dtype = .Int64 ∨ idxs.dtype = .UInt64) →
      (∃ v ∈ idxs.values, (2 ^ 32 : ℚ) ≤ v) →
      posIdxs .UInt32 len idxs
        = .error (.valueError "Index positions should be smaller than 2^32."))
  ∧ (idxs.dtype = .Int64 →
      (∀ v ∈ idxs.values, v < (2 ^ 32 : ℚ)) →
      (∃ v ∈ idxs.values, v < -(2 ^ 32 : ℚ)) →
      posIdxs .UInt32 len idxs
        = .error (.valueError "Index positions should be bigger than -2^32 + 1."))
  ∧ ((idxs.dtype = .Int8 ∨ idxs.dtype = .Int16 ∨ idxs.dtype = .Int32 ∨
        idxs.dtype = .Int64) →
      (∀ v ∈ idxs.values, idxs.dtype.contains v = true) →
      (idxs.dtype = .Int64 →
        ∀ v ∈ idxs.values, -(2 ^ 32 : ℚ) ≤ v ∧ v < (2 ^ 32 : ℚ)) →
      posIdxs .UInt32 len idxs
        = seriesCast (translateNegIdxs len idxs) .UInt32)
  ∧ ((arr.dtype = .Int64 ∨ arr.dtype = .UInt64) →
      (∃ v ∈ arr.values, (2 ^ 32 : Int) ≤ v) →
      posIdxsNp .UInt32 len arr
        = .error (.valueError "Index positions should be smaller than 2^32."))
  ∧ (arr.dtype = .Int64 →
      (∀ v ∈ arr.values, v < (2 ^ 32 : Int)) →
      (∃ v ∈ arr.values, v < -(2 ^ 32 : Int)) →
      posIdxsNp .UInt32 len arr
        = .error (.valueError "Index positions should be bigger than -2^32 + 1."))
  ∧ ((arr.dtype = .Int8 ∨ arr.dtype = .Int16 ∨ arr.dtype = .Int32 ∨
        arr.dtype = .Int64) →
      (arr.dtype = .Int64 →
        ∀ v ∈ arr.values, -(2 ^ 32 : Int) ≤ v ∧ v < (2 ^ 32 : Int)) →
      posIdxsNp .UInt32 len arr
        = seriesFromNp "" (npWhereNegAdd len arr) .UInt32) := by
  obtain ⟨nm, dt, vals⟩ := idxs
  obtain ⟨adt, andim, avals⟩ := arr
  obtain rfl : andim = 1 := hdim
  refine ⟨?_, ?_, ?_, ?_, ?_, ?_⟩
  · rintro (rfl | rfl) hex
    · obtain ⟨mx, hmx⟩ := seriesMax_isSome ⟨nm, .Int64, vals⟩ hne
      have hmx32 : (2 ^ 32 : ℚ) ≤ mx := by
        obtain ⟨v, hv, hv32⟩ := hex
        exact le_trans hv32 ((seriesMax_spec _ mx hmx).2 v hv)
      simp [posIdxs, hmx, pyGeN, hmx32]
    · obtain ⟨mx, hmx⟩ := seriesMax_isSome ⟨nm, .UInt64, vals⟩ hne
      have hmx32 : (2 ^ 32 : ℚ) ≤ mx := by
        obtain ⟨v, hv, hv32⟩ := hex
        exact le_trans hv32 ((seriesMax_spec _ mx hmx).2 v hv)
      simp [posIdxs, hmx, pyGeN, hmx32]
  · rintro rfl hall hex
    obtain ⟨mx, hmx⟩ := seriesMax_isSome ⟨nm, .Int64, vals⟩ hne
    obtain ⟨mi, hmi⟩ := seriesMin_isSome ⟨nm, .Int64, vals⟩ hne
    have hmx32 : ¬ (2 ^ 32 : ℚ) ≤ mx :=
      not_le.mpr (hall mx (seriesMax_spec _ mx hmx).1)
    have hmi32 : mi < -(2 ^ 32 : ℚ) := by
      obtain ⟨v, hv, hv32⟩ := hex
      exact lt_of_le_of_lt ((seriesMin_spec _ mi hmi).2 v hv) hv32
    simp [posIdxs, hmx, hmi, pyGeN, pyLtN, hmx32, hmi32]
  · rintro hdt hwf hr64
    obtain ⟨mi, hmi⟩ := seriesMin_isSome ⟨nm, dt, vals⟩ hne
    have hminle := (seriesMin_spec _ mi hmi).2
    by_cases hmi0 : mi < 0
    · rcases hdt with rfl | rfl | rfl | rfl
      · have hc : seriesCast ⟨nm, .Int8, vals⟩ .Int32 = .ok ⟨nm, .Int32, vals⟩ := by
          have h : vals.all (fun v => DType.contains .Int32 v) = true :=
            List.all_eq_true.mpr (fun x hx => contains_int8_to_int32 x (hwf x hx))
          simp [seriesCast, h]
        rw [show posIdxs .UInt32 len ⟨nm, .Int8, vals⟩
            = seriesCast (translateNegIdxs len ⟨nm, .Int32, vals⟩) .UInt32 by
          simp [posIdxs, hmi, pyLtN, hmi0, hc]]
        exact seriesCast_translate_dtype_irrel len nm .Int32 .Int8 vals .UInt32
      · have hc : seriesCast ⟨nm, .Int16, vals⟩ .Int32 = .ok ⟨nm, .Int32, vals⟩ := by
          have h : vals.all (fun v => DType.contains .Int32 v) = true :=
            List.all_eq_true.mpr (fun x hx => contains_int16_to_int32 x (hwf x hx))
          simp [seriesCast, h]
        rw [show posIdxs .UInt32 len ⟨nm, .Int16, vals⟩
            = seriesCast (translateNegIdxs len ⟨nm, .Int32, vals⟩) .UInt32 by
          simp [posIdxs, hmi, pyLtN, hmi0, hc]]
        exact seriesCast_translate_dtype_irrel len nm .Int32 .Int16 vals .UInt32
      · simp [posIdxs, hmi, pyLtN, hmi0]
      · obtain ⟨mx, hmx⟩ := seriesMax_isSome ⟨nm, .Int64, vals⟩ hne
        have hb := hr64 rfl
        have hmx32 : ¬ (2 ^ 32 : ℚ) ≤ mx :=
          not_le.mpr (hb mx (seriesMax_spec _ mx hmx).1).2
        have hmi32 : ¬ mi < -(2 ^ 32 : ℚ) :=
          not_lt.mpr (hb mi (seriesMin_spec _ mi hmi).1).1
        simp [posIdxs, hmx, hmi, pyGeN, pyLtN, hmx32, hmi32, hmi0]
    · have ht : translateNegIdxs len ⟨nm, dt, vals⟩ = ⟨nm, dt, vals⟩ :=
        translateNegIdxs_id_of_nonneg len _
          (fun v hv => le_trans (not_lt.mp hmi0) (hminle v hv))
      rw [ht]
      rcases hdt with rfl | rfl | rfl | rfl
      · simp [posIdxs, hmi, pyLtN, hmi0]
      · simp [posIdxs, hmi, pyLtN, hmi0]
      · simp [posIdxs, hmi, pyLtN, hmi0]
      · obtain ⟨mx, hmx⟩ := seriesMax_isSome ⟨nm, .Int64, vals⟩ hne
        have hb := hr64 rfl
        have hmx32 : ¬ (2 ^ 32 : ℚ) ≤ mx :=
          not_le.mpr (hb mx (seriesMax_spec _ mx hmx).1).2
        have hmi32 : ¬ mi < -(2 ^ 32 : ℚ) :=
          not_lt.mpr (hb mi (seriesMin_spec _ mi hmi).1).1
        simp [posIdxs, hmx, hmi, pyGeN, pyLtN, hmx32, hmi32, hmi0]
  · rintro (rfl | rfl) hex
    · obtain ⟨mx, hmx⟩ := npMax_isOk ⟨.Int64, 1, avals⟩ hane
      have hmx32 : (2 ^ 32 : Int) ≤ mx := by
        obtain ⟨v, hv, hv32⟩ := hex
        exact le_trans hv32 ((npMax_spec _ mx hmx).2 v hv)
      have hmxn : (4294967296 : Int) ≤ mx := by simpa using hmx32
      simp [posIdxsNp, hmx, ge_iff_le, hmxn]
    · obtain ⟨mx, hmx⟩ := npMax_isOk ⟨.UInt64, 1, avals⟩ hane
      have hmx32 : (2 ^ 32 : Int) ≤ mx := by
        obtain ⟨v, hv, hv32⟩ := hex
        exact le_trans hv32 ((npMax_spec _ mx hmx).2 v hv)
      have hmxn : (4294967296 : Int) ≤ mx := by simpa using hmx32
      simp [posIdxsNp, hmx, ge_iff_le, hmxn]
  · rintro rfl hall hex
    obtain ⟨mx, hmx⟩ := npMax_isOk ⟨.Int64, 1, avals⟩ hane
    obtain ⟨mi, hmi⟩ := npMin_isOk ⟨.Int64, 1, avals⟩ hane
    have hmx32 : ¬ (2 ^ 32 : Int) ≤ mx :=
      not_le.mpr (hall mx (npMax_spec _ mx hmx).1)
    have hmi32 : mi < -(2 ^ 32 : Int) := by
      obtain ⟨v, hv, hv32⟩ := hex
      exact lt_of_le_of_lt ((npMin_spec _ mi hmi).2 v hv) hv32
    have hmxn : ¬ (4294967296 : Int) ≤ mx := by simpa using hmx32
    have hmin : mi < (-4294967296 : Int) := by simpa using hmi32
    simp [posIdxsNp, hmx, hmi, ge_iff_le, hmxn, hmin]
  · rintro hdt hr64
    obtain ⟨mi, hmi⟩ := npMin_isOk ⟨adt, 1, avals⟩ hane
    have hminle := (npMin_spec _ mi hmi).2
    by_cases hmi0 : mi < 0
    · rcases hdt with rfl | rfl | rfl | rfl
      · rw [show posIdxsNp .UInt32 len ⟨.Int8, 1, avals⟩
            = seriesFromNp "" (npWhereNegAdd len ⟨.Int32, 1, avals⟩) .UInt32 by
          simp [posIdxsNp, hmi, hmi0]]
        exact seriesFromNp_where_dtype_irrel len ⟨.Int8, 1, avals⟩ .Int32 .UInt32
      · rw [show posIdxsNp .UInt32 len ⟨.Int16, 1, avals⟩
            = seriesFromNp "" (npWhereNegAdd len ⟨.Int32, 1, avals⟩) .UInt32 by
          simp [posIdxsNp, hmi, hmi0]]
        exact seriesFromNp_where_dtype_irrel len ⟨.Int16, 1, avals⟩ .Int32 .UInt32
      · simp [posIdxsNp, hmi, hmi0]
      · obtain ⟨mx, hmx⟩ := npMax_isOk ⟨.Int64, 1, avals⟩ hane
        have hb := hr64 rfl
        have hmx32 : ¬ (2 ^ 32 : Int) ≤ mx :=
          not_le.mpr (hb mx (npMax_spec _ mx hmx).1).2
        have hmi32 : ¬ mi < -(2 ^ 32 : Int) :=
          not_lt.mpr (hb mi (npMin_spec _ mi hmi).1).1
        have hmxn : ¬ (4294967296 : Int) ≤ mx := by simpa using hmx32
        have hmin : ¬ mi < (-4294967296 : Int) := by simpa using hmi32
        simp [posIdxsNp, hmx, hmi, ge_iff_le, hmxn, hmin, hmi0]
    · have ht : npWhereNegAdd len ⟨adt, 1, avals⟩ = ⟨adt, 1, avals⟩ :=
        npWhereNegAdd_id_of_nonneg len _
          (fun v hv => le_trans (not_lt.mp hmi0) (hminle v hv))
      rw [ht]
      rcases hdt with rfl | rfl | rfl | rfl
      · simp [posIdxsNp, hmi, hmi0]
      · simp [posIdxsNp, hmi, hmi0]
      · simp [posIdxsNp, hmi, hmi0]
      · obtain ⟨mx, hmx⟩ := npMax_isOk ⟨.Int64, 1, avals⟩ hane
        have hb := hr64 rfl
        have hmx32 : ¬ (2 ^ 32 : Int) ≤ mx :=
          not_le.mpr (hb mx (npMax_spec _ mx hmx).1).2
        have hmi32 : ¬ mi < -(2 ^ 32 : Int) :=
          not_lt.mpr (hb mi (npMin_spec _ mi hmi).1).1
        have hmxn : ¬ (4294967296 : Int) ≤ mx := by simpa using hmx32
        have hmin : ¬ mi < (-4294967296 : Int) := by simpa using hmi32
        simp [posIdxsNp, hmx, hmi, ge_iff_le, hmxn, hmin, hmi0]

/-- Witness for C4 (amended) instantiated at the Int64 index Series
[1, -1] and the int64 numpy array [1, -1] against a length-3 Series. -/
theorem pos_idxs_range_checks_and_negative_translation_witness :
    posIdxs .UInt32 3 ⟨"", .Int64, [1, -1]⟩
      = seriesCast (translateNegIdxs 3 ⟨"", .Int64, [1, -1]⟩) .UInt32
  ∧ posIdxsNp .UInt32 3 ⟨.Int64, 1, [1, -1]⟩
      = seriesFromNp "" (npWhereNegAdd 3 ⟨.Int64, 1, [1, -1]⟩) .UInt32 :=
  ⟨(pos_idxs_range_checks_and_negative_translation 3 ⟨"", .Int64, [1, -1]⟩
      ⟨.Int64, 1, [1, -1]⟩ (by simp) (by simp) rfl).2.2.1
    (Or.inr (Or.inr (Or.inr rfl)))
    (by decide)
    (fun _ => by decide),
   (pos_idxs_range_checks_and_negative_translation 3 ⟨"", .Int64, [1, -1]⟩
      ⟨.Int64, 1, [1, -1]⟩ (by simp) (by simp) rfl).2.2.2.2.2
    (Or.inr (Or.inr (Or.inr rfl)))
    (fun _ => by decide)⟩
